import Mathlib

/-!
# Verification of the Digital-Twin ingestion and retrieval engine

Shallow embedding of the incremental ingestion/synchronization engine
(`src/main_ingest.py`, `src/ingest/*.py`) and the routing/retrieval engine
(`src/core/router.py`, `src/core/retriever.py`), with theorems checking the
specification's claims against the code.

Python dicts are modelled as insertion-ordered association lists, the Qdrant
vector store as the list of point ids it currently holds, and exceptions as
`Except` values (or as explicit outcome constructors where a raised exception
is caught by the caller).  Environment flags `FORCE_REINDEX` and `RESUME_MODE`
are modelled at their default value (off).
-/

namespace DigitalTwin

/-! ## Sync ledger (hash stores)

`src/ingest/hash_store.py`, `src/ingest/gdrive_hash_store.py`,
`src/ingest/synthetic_hash_store.py`.  All three persist a mapping
`source_key -> {fingerprint, point_ids}`; the fingerprint field is named
`git_sha` / `modified_time` / `content_sha` respectively, modelled here by the
single field `fingerprint`. -/

structure LedgerEntry where
  fingerprint : String
  point_ids : List String
deriving Repr, DecidableEq

/-- A Python dict keyed by strings, as an insertion-ordered association list. -/
abbrev Store := List (String × LedgerEntry)

/-- `store.get(key)` on a Python dict. -/
def storeGet : Store → String → Option LedgerEntry
  | [], _ => none
  | (k, v) :: rest, key => if k = key then some v else storeGet rest key

/-- `store[key] = value` on a Python dict: replace in place, or append. -/
def storeSet : Store → String → LedgerEntry → Store
  | [], key, v => [(key, v)]
  | (k, w) :: rest, key, v =>
    if k = key then (k, v) :: rest else (k, w) :: storeSet rest key v

/-- `is_changed` from `src/ingest/hash_store.py` (lines 19-24): true iff the
key is absent or the stored SHA differs. -/
def is_changed (store : Store) (file_key current_sha : String) : Bool :=
  match storeGet store file_key with
  | none => true
  | some entry => entry.fingerprint ≠ current_sha

/-- `record_file` from `src/ingest/hash_store.py`. -/
def record_file (store : Store) (file_key git_sha : String)
    (point_ids : List String) : Store :=
  storeSet store file_key ⟨git_sha, point_ids⟩

/-- `get_old_point_ids` from `src/ingest/hash_store.py`. -/
def get_old_point_ids (store : Store) (file_key : String) : List String :=
  match storeGet store file_key with
  | none => []
  | some entry => entry.point_ids

/-- `is_gdrive_changed` from `src/ingest/gdrive_hash_store.py`: same logic on
the `modified_time` fingerprint. -/
def is_gdrive_changed (store : Store) (file_id modified_time : String) : Bool :=
  match storeGet store file_id with
  | none => true
  | some entry => entry.fingerprint ≠ modified_time

/-- `record_gdrive_file` from `src/ingest/gdrive_hash_store.py`. -/
def record_gdrive_file (store : Store) (file_id modified_time : String)
    (point_ids : List String) : Store :=
  storeSet store file_id ⟨modified_time, point_ids⟩

/-- `get_old_gdrive_point_ids` from `src/ingest/gdrive_hash_store.py`. -/
def get_old_gdrive_point_ids (store : Store) (file_id : String) : List String :=
  match storeGet store file_id with
  | none => []
  | some entry => entry.point_ids

/-- `is_synthetic_changed` from `src/ingest/synthetic_hash_store.py`. -/
def is_synthetic_changed (store : Store) (file_name current_sha : String) : Bool :=
  match storeGet store file_name with
  | none => true
  | some entry => entry.fingerprint ≠ current_sha

/-- `record_synthetic_file` from `src/ingest/synthetic_hash_store.py`. -/
def record_synthetic_file (store : Store) (file_name content_sha : String)
    (point_ids : List String) : Store :=
  storeSet store file_name ⟨content_sha, point_ids⟩

/-- `get_old_synthetic_point_ids` from `src/ingest/synthetic_hash_store.py`. -/
def get_old_synthetic_point_ids (store : Store) (file_name : String) : List String :=
  match storeGet store file_name with
  | none => []
  | some entry => entry.point_ids

/-! ## Vector store

The Qdrant collection, modelled by the list of point ids it holds.
`upsert` overwrites a point with the same id (no duplicate ids);
`delete` removes the listed ids (`delete_points_by_ids` in
`src/ingest/embedder.py`). -/

abbrev VStore := List String

/-- Upsert the given ids: ids already present are overwritten in place,
fresh ids are appended. -/
def vupsertIds (v : VStore) (ids : List String) : VStore :=
  ids.foldl (fun acc i => if acc.contains i then acc else acc ++ [i]) v

/-- `delete_points_by_ids`: remove the listed ids. -/
def vdeleteIds (v : VStore) (ids : List String) : VStore :=
  v.filter (fun p => !(ids.contains p))

/-! ## GitHub sync pass (`ingest_github`, `src/main_ingest.py` lines 103-160)

Each repository file carries its key, its git SHA (the fingerprint) and the
deterministic node ids its chunks produce.  The pass threads a state holding
the ledger, the vector store, the number of `upsert_nodes` and
`delete_points_by_ids` calls performed, and the per-run counters. -/

structure RepoFile where
  file_key : String
  git_sha : String
  node_ids : List String
deriving Repr, DecidableEq

structure SyncState where
  store : Store
  vstore : VStore
  upserts : Nat
  deletes : Nat
  new_count : Nat
  changed_count : Nat
  skipped_count : Nat
deriving Repr, DecidableEq

/-- One loop iteration of `ingest_github` for one file. -/
def githubStep (st : SyncState) (f : RepoFile) : SyncState :=
  if ¬ is_changed st.store f.file_key f.git_sha then
    { st with skipped_count := st.skipped_count + 1 }
  else
    let old_ids := get_old_point_ids st.store f.file_key
    let st1 :=
      if old_ids.isEmpty then
        { st with new_count := st.new_count + 1 }
      else
        { st with vstore := vdeleteIds st.vstore old_ids,
                  deletes := st.deletes + 1,
                  changed_count := st.changed_count + 1 }
    { st1 with vstore := vupsertIds st1.vstore f.node_ids,
               upserts := st1.upserts + 1,
               store := record_file st1.store f.file_key f.git_sha f.node_ids }

/-- The `ingest_github` per-repository loop over the fetched files. -/
def ingest_github (st : SyncState) (files : List RepoFile) : SyncState :=
  files.foldl githubStep st

/-! ## Synthetic sync pass (`ingest_synthetic`, `src/main_ingest.py` lines 171-259)

Every per-file step runs inside `try/except` clauses that catch any exception,
bump `error_count` and continue with the next file.  Two failure points are
modelled: `sha_fails` (an exception from `compute_file_sha`, raised before the
change check) and `load_fails` (an exception from `load_synthetic_document` or
later, raised after `new_count` was already incremented).

NOTE: in the source, the block that deletes the old point ids of a changed
file (`get_old_synthetic_point_ids` / `delete_points_by_ids`) is commented
out (lines 224-229): a changed file is counted as new and its new nodes are
upserted without any deletion.  The model reproduces exactly that. -/

structure SynFile where
  file_name : String
  content_sha : String
  node_ids : List String
  sha_fails : Bool
  load_fails : Bool
deriving Repr, DecidableEq

structure SynState where
  store : Store
  vstore : VStore
  upserts : Nat
  deletes : Nat
  new_count : Nat
  changed_count : Nat
  skipped_count : Nat
  error_count : Nat
deriving Repr, DecidableEq

/-- One loop iteration of `ingest_synthetic` for one JSON file, with the
per-file `try/except` folded in. -/
def syntheticStep (st : SynState) (f : SynFile) : SynState :=
  if f.sha_fails then
    -- compute_file_sha raised; caught, counted, continue
    { st with error_count := st.error_count + 1 }
  else if ¬ is_synthetic_changed st.store f.file_name f.content_sha then
    { st with skipped_count := st.skipped_count + 1 }
  else
    -- the deletion of get_old_synthetic_point_ids is commented out in the
    -- source, so no delete is issued and changed_count is never touched
    let st1 := { st with new_count := st.new_count + 1 }
    if f.load_fails then
      -- load_synthetic_document (or a later stage) raised; caught, continue
      { st1 with error_count := st1.error_count + 1 }
    else
      { st1 with
          vstore := vupsertIds st1.vstore f.node_ids,
          upserts := st1.upserts + 1,
          store := record_synthetic_file st1.store f.file_name f.content_sha
                     f.node_ids }

/-- The `ingest_synthetic` loop over the discovered JSON files. -/
def ingest_synthetic (st : SynState) (files : List SynFile) : SynState :=
  files.foldl syntheticStep st

/-! ## Google-Drive sync pass (`ingest_folder`, `src/main_ingest.py` lines 37-100)

There is no `try/except` around the per-document work: an exception from
`tag_and_chunk` / `upsert_nodes` propagates and aborts the whole pass, which
is modelled by returning `Except.error`.  A document may also lack the
`file id` / `modified at` metadata, in which case it is skipped without
touching any counter.  The printed summary has only `new`, `updated` and
`skipped` counters — there is no errored count in this pass. -/

structure GDoc where
  file_id : String
  modified_time : String
  node_ids : List String
  has_metadata : Bool
  process_fails : Bool
deriving Repr, DecidableEq

def ingest_folder (st : SyncState) : List GDoc → Except String SyncState
  | [] => .ok st
  | d :: rest =>
    if ¬ d.has_metadata then
      -- warning printed, document skipped without counting
      ingest_folder st rest
    else if ¬ is_gdrive_changed st.store d.file_id d.modified_time then
      ingest_folder { st with skipped_count := st.skipped_count + 1 } rest
    else
      let old_ids := get_old_gdrive_point_ids st.store d.file_id
      let st1 :=
        if old_ids.isEmpty then
          { st with new_count := st.new_count + 1 }
        else
          { st with vstore := vdeleteIds st.vstore old_ids,
                    deletes := st.deletes + 1,
                    changed_count := st.changed_count + 1 }
      if d.process_fails then
        -- tag_and_chunk / upsert_nodes raised: nothing catches it,
        -- the exception aborts the whole pass
        .error "unhandled exception in tag_and_chunk or upsert_nodes"
      else
        ingest_folder
          { st1 with
              vstore := vupsertIds st1.vstore d.node_ids,
              upserts := st1.upserts + 1,
              store := record_gdrive_file st1.store d.file_id d.modified_time
                         d.node_ids } rest

/-! ## Ledger loading (`load_hash_store`, `load_gdrive_hash_store`,
`load_synthetic_store`)

The ledger file on disk is either missing, present with content that
`json.loads` parses, or present with content that makes `json.loads` raise. -/

inductive LedgerFile where
  | missing
  | parses (s : Store)
  | corrupt
deriving Repr, DecidableEq

/-- `load_hash_store` (`src/ingest/hash_store.py` lines 6-10): returns `{}`
when the file is missing, otherwise returns `json.loads(path.read_text())`
with no exception handling. -/
def load_hash_store : LedgerFile → Except String Store
  | .missing => .ok []
  | .parses s => .ok s
  | .corrupt => .error "json.JSONDecodeError"

/-- `load_gdrive_hash_store` (`src/ingest/gdrive_hash_store.py` lines 6-11):
identical structure, no exception handling. -/
def load_gdrive_hash_store : LedgerFile → Except String Store
  | .missing => .ok []
  | .parses s => .ok s
  | .corrupt => .error "json.JSONDecodeError"

/-- `load_synthetic_store` (`src/ingest/synthetic_hash_store.py` lines 23-39):
the `json.loads` call is wrapped in `try/except`, a corrupted store degrades
to the empty dict. -/
def load_synthetic_store : LedgerFile → Except String Store
  | .missing => .ok []
  | .parses s => .ok s
  | .corrupt => .ok []

/-! ## `_upsert_with_retry` (`src/ingest/embedder.py` lines 64-76)

As written, the body of the `try` block is `_upsert_with_retry(client,
points)` — the function calls itself (the `client.upsert(...)` line is
commented out), and the recursive call uses the default `retries=3`.  The
recursion has no base case, so in Python it descends until the interpreter
raises `RecursionError`; `RecursionError` is not a
`ResponseHandlingException`, so the `except` clause does not catch it and it
propagates through every frame.

The model makes the recursion-depth budget explicit: `depth` is the number of
stack frames still available, and exhausting it raises `RecursionError`.
An outcome also counts how many times `client.upsert` was actually invoked
(zero everywhere, since the call is commented out). -/

inductive RetryOutcome where
  /-- the call returned normally -/
  | ok
  /-- ResponseHandlingException escaped -/
  | responseError
  /-- RecursionError escaped -/
  | recursionError
deriving Repr, DecidableEq

/-- The `for attempt in range(retries)` loop of `_upsert_with_retry`, given
the outcome every attempt's `try` body produces (the body is a deterministic
recursive call, so each attempt sees the same outcome).  `remaining` is the
number of attempts left; falling off the end of the loop returns normally. -/
def retryAttempts (body : RetryOutcome × Nat) : Nat → RetryOutcome × Nat
  | 0 => (.ok, 0)
  | remaining + 1 =>
    match body with
    | (.ok, n) => (.ok, n)
    | (.recursionError, n) => (.recursionError, n)
    | (.responseError, n) =>
      if remaining = 0 then
        (.responseError, n)
      else
        -- attempt < retries - 1: sleep 2**attempt seconds, then retry
        let (r, m) := retryAttempts body remaining
        (r, n + m)

/-- `_upsert_with_retry` as written: each frame's attempt body is the
recursive call with the default `retries = 3`; at depth 0 the interpreter
raises `RecursionError`.  The second component counts `client.upsert` calls
(the call site is commented out, so the count can only come from the callee).
-/
def upsert_with_retry : Nat → Nat → RetryOutcome × Nat
  | 0, _ => (.recursionError, 0)
  | depth + 1, retries => retryAttempts (upsert_with_retry depth 3) retries

/-! ## Namespace classifier (`detect_mode`, `src/core/router.py` lines 97-141)

The classifier embeds the query once and scores each namespace as the
maximum cosine similarity against that namespace's exemplar utterances.
The embedding provider and the cosine are abstracted into a score function
`cos : α → β → ℚ` (query vector against exemplar vector); the `_ANCHORS`
dict gives every namespace a nonempty tuple of utterances, modelled as a
head vector plus the remaining vectors. -/

def CONFIDENCE_THRESHOLD : ℚ := 8 / 100

/-- Python `max` over a nonempty sequence, first element as the seed. -/
def pyMax (x : ℚ) (xs : List ℚ) : ℚ :=
  xs.foldl max x

/-- Python `max(scores, key=scores.get)`: the first key attaining the maximal
value, in dict insertion order (a later key replaces the champion only when
its value is strictly greater). -/
def pyArgmax : List (String × ℚ) → Option String
  | [] => none
  | p :: rest => some (rest.foldl (fun b q => if q.2 > b.2 then q else b) p).1

/-- Python `sorted(l, reverse=True)` on rationals: a stable descending sort,
modelled as stable insertion sort. -/
def insertDescQ (x : ℚ) : List ℚ → List ℚ
  | [] => [x]
  | y :: ys => if y ≤ x then x :: y :: ys else y :: insertDescQ x ys

def sortDescQ : List ℚ → List ℚ
  | [] => []
  | x :: xs => insertDescQ x (sortDescQ xs)

/-- The per-namespace score map of `detect_mode`:
`{ns: max(_cosine(qvec, vec) for vec in vecs)}` in dict insertion order.
Each anchor entry is `(namespace, first exemplar vector, remaining vectors)`.
-/
def ns_scores {α β : Type} (cos : α → β → ℚ) (qvec : α)
    (anchors : List (String × β × List β)) : List (String × ℚ) :=
  anchors.map (fun a => (a.1, pyMax (cos qvec a.2.1) (a.2.2.map (cos qvec))))

/-- `detect_mode` (`src/core/router.py` lines 112-141).  Returns `none` when
`sorted_scores[1]` would raise an IndexError (fewer than two namespaces);
the source's `_ANCHORS` always has two. -/
def detect_mode {α β : Type} (cos : α → β → ℚ) (qvec : α)
    (anchors : List (String × β × List β)) :
    Option (String × List (String × ℚ)) :=
  let scores := ns_scores cos qvec anchors
  let sorted_scores := sortDescQ (scores.map Prod.snd)
  match sorted_scores with
  | best :: second :: _ =>
    if best - second < CONFIDENCE_THRESHOLD then
      some ("ambiguous", scores)
    else
      match pyArgmax scores with
      | some mode => some (mode, scores)
      | none => none
  | _ => none

/-! ## Cosine helper (`_cosine`, `src/core/router.py` lines 108-109)

`np.dot(a, b) / (np.linalg.norm(a) * np.linalg.norm(b) + 1e-9)`, modelled
over the reals. -/

def dotp (a b : List ℝ) : ℝ :=
  (List.zipWith (· * ·) a b).sum

noncomputable def l2norm (v : List ℝ) : ℝ :=
  Real.sqrt ((v.map (fun x => x ^ 2)).sum)

/-- The denominator of `_cosine`: `norm(a) * norm(b) + 1e-9`. -/
noncomputable def cosineDenom (a b : List ℝ) : ℝ :=
  l2norm a * l2norm b + 1e-9

noncomputable def cosine (a b : List ℝ) : ℝ :=
  dotp a b / cosineDenom a b

/-! ## Retriever (`src/core/retriever.py`)

`_query_namespace` wraps one filtered Qdrant `query_points` call; it is
abstracted into a function `query_ns : String → Nat → List RetrievedChunk`
from (namespace, limit) to the scored result list the store returns.
Python's stable `sorted(..., key=lambda c: c.score, reverse=True)` is again
modelled as stable insertion sort. -/

def TOP_K : Nat := 6

def OUT_OF_SCOPE_THRESHOLD : ℚ := 3 / 10

def AMBIGUOUS_K_PER_NS : Nat := TOP_K

def namespaces : List String := ["technical", "nontechnical"]

structure RetrievedChunk where
  text : String
  score : ℚ
  doc_title : String
  source_url : String
  chunk_index : Nat
  personality_ns : String
  content_type : String
deriving Repr, DecidableEq

/-- Stable insertion into a descending-by-score list: the inserted (earlier)
chunk goes before any already-placed chunk whose score is not greater. -/
def insertDescChunk (c : RetrievedChunk) :
    List RetrievedChunk → List RetrievedChunk
  | [] => [c]
  | d :: ds => if d.score ≤ c.score then c :: d :: ds else d :: insertDescChunk c ds

def sortDescChunks : List RetrievedChunk → List RetrievedChunk
  | [] => []
  | c :: cs => insertDescChunk c (sortDescChunks cs)

/-- The ambiguous branch of `retrieve` (`src/core/retriever.py` lines
117-130): one filtered search per namespace with `k_per_ns` each, results
concatenated in namespace order, globally re-sorted by score descending
(stable, so ties keep namespace order), truncated to `k`. -/
def ambiguous_merge (query_ns : String → Nat → List RetrievedChunk)
    (nss : List String) (k_per_ns k : Nat) : List RetrievedChunk :=
  (sortDescChunks (nss.flatMap (fun ns => query_ns ns k_per_ns))).take k

/-- `out_of_scope = len(chunks) == 0 or chunks[0].score <
OUT_OF_SCOPE_THRESHOLD` (`src/core/retriever.py` line 134). -/
def out_of_scope_flag : List RetrievedChunk → Bool
  | [] => true
  | c :: _ => c.score < OUT_OF_SCOPE_THRESHOLD

/-- `retrieve` (`src/core/retriever.py` lines 89-135).  The only `raise` in
the function is the `ValueError` for `namespace == "ambiguous"` with an empty
`namespaces` list. -/
def retrieve (query_ns : String → Nat → List RetrievedChunk)
    (nspace : String) : Except String (List RetrievedChunk × Bool) :=
  if nspace = "ambiguous" then
    if namespaces.isEmpty then
      .error "ValueError: ambiguous requires the namespaces list"
    else
      let chunks := ambiguous_merge query_ns namespaces AMBIGUOUS_K_PER_NS TOP_K
      .ok (chunks, out_of_scope_flag chunks)
  else
    let chunks := query_ns nspace TOP_K
    .ok (chunks, out_of_scope_flag chunks)

/-! ## Chunk-identifier derivation (`tag_and_chunk`, `src/ingest/chunker.py`
lines 61-74)

`raw = f"{file_id}|{personality_ns}|{content_type}|{i}"`,
`hash_bytes = hashlib.sha1(raw.encode("utf-8")).digest()[:16]`,
`node.node_id = str(uuid.UUID(bytes=hash_bytes))`.

SHA-1 is implemented below over byte lists, with 32-bit words as `Nat`
reduced `% 2^32`; `uuid.UUID(bytes=...)` takes the 16 bytes verbatim and
`str` renders them as lowercase hex in 8-4-4-4-12 grouping. -/

/-- UTF-8 encoding of one character (`str.encode("utf-8")`). -/
def utf8EncodeChar (c : Char) : List Nat :=
  let n := c.toNat
  if n < 0x80 then
    [n]
  else if n < 0x800 then
    [0xC0 ||| (n >>> 6), 0x80 ||| (n &&& 0x3F)]
  else if n < 0x10000 then
    [0xE0 ||| (n >>> 12), 0x80 ||| ((n >>> 6) &&& 0x3F), 0x80 ||| (n &&& 0x3F)]
  else
    [0xF0 ||| (n >>> 18), 0x80 ||| ((n >>> 12) &&& 0x3F),
     0x80 ||| ((n >>> 6) &&& 0x3F), 0x80 ||| (n &&& 0x3F)]

def utf8Encode (s : String) : List Nat :=
  s.data.flatMap utf8EncodeChar

/-- Rotate a 32-bit word (a `Nat` below `2^32`) left by `b` bits. -/
def rotl32 (b n : Nat) : Nat :=
  ((n <<< b) ||| (n >>> (32 - b))) &&& 0xFFFFFFFF

/-- Split a `Nat` into `k` big-endian bytes. -/
def beBytes (k n : Nat) : List Nat :=
  (List.range k).map (fun i => (n >>> (8 * (k - 1 - i))) &&& 0xFF)

/-- SHA-1 message padding: append `0x80`, zero-pad to 56 mod 64, append the
bit length as 8 big-endian bytes. -/
def sha1Pad (msg : List Nat) : List Nat :=
  let z := (64 + 56 - (msg.length + 1) % 64) % 64
  msg ++ [0x80] ++ List.replicate z 0 ++ beBytes 8 (8 * msg.length)

/-- Big-endian 32-bit words of one 64-byte block. -/
def blockWords (block : List Nat) : Array Nat :=
  ((List.range 16).map (fun i =>
    (block.getD (4 * i) 0) <<< 24 ||| (block.getD (4 * i + 1) 0) <<< 16 |||
    (block.getD (4 * i + 2) 0) <<< 8 ||| block.getD (4 * i + 3) 0)).toArray

/-- Extend 16 words to the 80-word schedule:
`w[i] = rotl1(w[i-3] ^ w[i-8] ^ w[i-14] ^ w[i-16])`. -/
def sha1Extend (ws : Array Nat) : Array Nat :=
  (List.range 64).foldl (fun ws _ =>
    let s := ws.size
    ws.push (rotl32 1 (ws.getD (s - 3) 0 ^^^ ws.getD (s - 8) 0 ^^^
                       ws.getD (s - 14) 0 ^^^ ws.getD (s - 16) 0))) ws

/-- The SHA-1 round function and constant for round `i`. -/
def sha1FK (i b c d : Nat) : Nat × Nat :=
  if i < 20 then ((b &&& c) ||| ((b ^^^ 0xFFFFFFFF) &&& d), 0x5A827999)
  else if i < 40 then (b ^^^ c ^^^ d, 0x6ED9EBA1)
  else if i < 60 then ((b &&& c) ||| (b &&& d) ||| (c &&& d), 0x8F1BBCDC)
  else (b ^^^ c ^^^ d, 0xCA62C1D6)

/-- Compress one 64-byte block into the running state `(h0, h1, h2, h3, h4)`.
-/
def sha1Block (h : Nat × Nat × Nat × Nat × Nat) (block : List Nat) :
    Nat × Nat × Nat × Nat × Nat :=
  let w := sha1Extend (blockWords block)
  let (h0, h1, h2, h3, h4) := h
  let (a, b, c, d, e) :=
    (List.range 80).foldl
      (fun (st : Nat × Nat × Nat × Nat × Nat) i =>
        let (a, b, c, d, e) := st
        let (f, k) := sha1FK i b c d
        let temp := (rotl32 5 a + f + e + k + w.getD i 0) &&& 0xFFFFFFFF
        (temp, a, rotl32 30 b, c, d))
      (h0, h1, h2, h3, h4)
  ((h0 + a) &&& 0xFFFFFFFF, (h1 + b) &&& 0xFFFFFFFF, (h2 + c) &&& 0xFFFFFFFF,
   (h3 + d) &&& 0xFFFFFFFF, (h4 + e) &&& 0xFFFFFFFF)

/-- `hashlib.sha1(msg).digest()`: the 20-byte SHA-1 digest of a byte list. -/
def sha1 (msg : List Nat) : List Nat :=
  let padded := sha1Pad msg
  let nblocks := padded.length / 64
  let (h0, h1, h2, h3, h4) :=
    (List.range nblocks).foldl
      (fun h i => sha1Block h ((padded.drop (64 * i)).take 64))
      (0x67452301, 0xEFCDAB89, 0x98BADCFE, 0x10325476, 0xC3D2E1F0)
  beBytes 4 h0 ++ beBytes 4 h1 ++ beBytes 4 h2 ++ beBytes 4 h3 ++ beBytes 4 h4

/-- One lowercase hex digit. -/
def hexDigit (n : Nat) : Char :=
  if n < 10 then Char.ofNat (48 + n) else Char.ofNat (87 + n)

/-- Lowercase hex of a list of bytes. -/
def hexOfBytes (bs : List Nat) : String :=
  String.mk (bs.flatMap (fun b => [hexDigit (b / 16), hexDigit (b % 16)]))

/-- `str(uuid.UUID(bytes=bs))` for a 16-byte list: lowercase hex grouped
8-4-4-4-12. -/
def uuidOfBytes (bs : List Nat) : String :=
  hexOfBytes (bs.take 4) ++ "-" ++ hexOfBytes ((bs.drop 4).take 2) ++ "-" ++
  hexOfBytes ((bs.drop 6).take 2) ++ "-" ++ hexOfBytes ((bs.drop 8).take 2) ++
  "-" ++ hexOfBytes (bs.drop 10)

/-- The node-id derivation of `tag_and_chunk` (`src/ingest/chunker.py` lines
61-74): SHA-1 of `file_id|personality_ns|content_type|i`, truncated to 16
bytes, formatted as a UUID. -/
def derive_node_id (file_id personality_ns content_type : String)
    (i : Nat) : String :=
  let raw := file_id ++ "|" ++ personality_ns ++ "|" ++ content_type ++ "|" ++
    Nat.repr i
  uuidOfBytes ((sha1 (utf8Encode raw)).take 16)

/-! # Theorems -/

/-! ## Store lemmas -/

theorem storeGet_storeSet_self (s : Store) (k : String) (v : LedgerEntry) :
    storeGet (storeSet s k v) k = some v := by
  induction s with
  | nil => simp [storeSet, storeGet]
  | cons p rest ih =>
    obtain ⟨a, w⟩ := p
    by_cases h : a = k <;> simp [storeSet, storeGet, h, ih]

theorem storeGet_storeSet_ne (s : Store) (k k' : String) (v : LedgerEntry)
    (h : k ≠ k') : storeGet (storeSet s k v) k' = storeGet s k' := by
  induction s with
  | nil => simp [storeSet, storeGet, h]
  | cons p rest ih =>
    obtain ⟨a, w⟩ := p
    by_cases ha : a = k
    · subst ha; simp [storeSet, storeGet, h]
    · simp [storeSet, storeGet, ha, ih]

theorem is_changed_record_self (s : Store) (k sha : String) (ids : List String) :
    is_changed (record_file s k sha ids) k sha = false := by
  simp [is_changed, record_file, storeGet_storeSet_self]

/-- `is_changed` depends on the store only through `storeGet` at the key. -/
theorem is_changed_congr {s s' : Store} {k sha : String}
    (h : storeGet s k = storeGet s' k) :
    is_changed s k sha = is_changed s' k sha := by
  simp [is_changed, h]

/-! ## C6 — determinism of the chunk-identifier derivation -/

/-- C6: the chunk-id derivation — SHA-1 of the four fields joined with `|`,
truncated to 16 bytes, formatted as a UUID — is a pure function: two
invocations with identical `(source_key, namespace, content_category,
sequence_index)` inputs produce an identical identifier. -/
theorem derive_node_id_deterministic
    (k₁ ns₁ ct₁ : String) (i₁ : Nat) (k₂ ns₂ ct₂ : String) (i₂ : Nat)
    (hk : k₁ = k₂) (hns : ns₁ = ns₂) (hct : ct₁ = ct₂) (hi : i₁ = i₂) :
    derive_node_id k₁ ns₁ ct₁ i₁ = derive_node_id k₂ ns₂ ct₂ i₂ := by
  subst hk hns hct hi; rfl

set_option maxRecDepth 20000 in
/-- Witness for C6 at a concrete input; the concrete identifier value matches
`str(uuid.UUID(bytes=hashlib.sha1(b"README.md|technical|documentation|0").digest()[:16]))`.
-/
theorem derive_node_id_deterministic_witness :
    derive_node_id "README.md" "technical" "documentation" 0 =
      derive_node_id "README.md" "technical" "documentation" 0 ∧
    derive_node_id "README.md" "technical" "documentation" 0 =
      "dbc6cff5-56a2-8115-9ffe-58dec4a2574c" :=
  ⟨derive_node_id_deterministic _ _ _ _ _ _ _ _ rfl rfl rfl rfl, by decide⟩

/-! ## C7 — ledger loading on a corrupt file -/

/-- C7 counterexample: the claim says loading never raises for any ledger
file state, but `load_hash_store` (and identically `load_gdrive_hash_store`)
has no exception handling around `json.loads`: an existing but non-parseable
ledger file raises. -/
theorem load_hash_store_corrupt_raises :
    load_hash_store LedgerFile.corrupt = Except.error "json.JSONDecodeError" ∧
    load_gdrive_hash_store LedgerFile.corrupt =
      Except.error "json.JSONDecodeError" :=
  ⟨rfl, rfl⟩

/-- C7 amended: a missing ledger file degrades to the empty store in all
three loaders, and the synthetic loader alone also degrades to the empty
store (never raises) on a corrupt file. -/
theorem ledger_load_degradation :
    load_hash_store LedgerFile.missing = Except.ok [] ∧
    load_gdrive_hash_store LedgerFile.missing = Except.ok [] ∧
    load_synthetic_store LedgerFile.missing = Except.ok [] ∧
    (∀ fs, ∃ s, load_synthetic_store fs = Except.ok s) ∧
    (∀ s, load_hash_store (LedgerFile.parses s) = Except.ok s) := by
  refine ⟨rfl, rfl, rfl, ?_, fun s => rfl⟩
  intro fs
  cases fs <;> exact ⟨_, rfl⟩

/-! ## C8 — `_upsert_with_retry` never performs the upsert -/

theorem upsert_with_retry_eq (d : Nat) :
    upsert_with_retry d 3 = (RetryOutcome.recursionError, 0) := by
  induction d with
  | zero => rfl
  | succ n ih => simp [upsert_with_retry, ih, retryAttempts]

/-- C8: the claim says the retry wrapper performs the upsert and terminates
within the bounded attempt budget, but as written the `try` body is the
recursive call itself (the `client.upsert` line is commented out): at every
recursion budget the call exhausts the stack, the resulting RecursionError is
not caught by the `except ResponseHandlingException` clause, and zero
`client.upsert` calls are ever made. -/
theorem upsert_with_retry_never_upserts :
    ∀ depth : Nat,
      upsert_with_retry depth 3 = (RetryOutcome.recursionError, 0) :=
  fun depth => upsert_with_retry_eq depth

/-! ## C10 — the cosine helper's denominator is strictly positive -/

theorem dotp_replicate_zero (n : Nat) (b : List ℝ) :
    dotp (List.replicate n 0) b = 0 := by
  induction n generalizing b with
  | zero => simp [dotp]
  | succ m ih =>
    cases b with
    | nil => simp [dotp]
    | cons x xs => simpa [dotp, List.replicate_succ] using ih xs

/-- C10: `_cosine`'s denominator `norm(a) * norm(b) + 1e-9` is strictly
positive for every pair of vectors, so the helper is total and never divides
by zero; on the all-zero vector it returns 0. -/
theorem cosine_denominator_positive :
    (∀ a b : List ℝ, 0 < cosineDenom a b) ∧
    (∀ a b : List ℝ, cosineDenom a b ≠ 0) ∧
    (∀ (n : Nat) (b : List ℝ), cosine (List.replicate n 0) b = 0) := by
  have hpos : ∀ a b : List ℝ, 0 < cosineDenom a b := by
    intro a b
    unfold cosineDenom l2norm
    have h1 : (0:ℝ) ≤ Real.sqrt ((a.map (fun x => x ^ 2)).sum) *
        Real.sqrt ((b.map (fun x => x ^ 2)).sum) :=
      mul_nonneg (Real.sqrt_nonneg _) (Real.sqrt_nonneg _)
    have h2 : (0:ℝ) < 1e-9 := by norm_num
    linarith
  refine ⟨hpos, fun a b => ne_of_gt (hpos a b), fun n b => ?_⟩
  simp [cosine, dotp_replicate_zero]

/-! ## C1 — reconciliation on change in the synthetic pass -/

/-- A synthetic source file previously ingested as three chunks
`p0, p1, p2`, whose content hash has changed and whose new content chunks to
the single id `p0`. -/
def c1File : SynFile :=
  { file_name := "a.json", content_sha := "sha-new", node_ids := ["p0"],
    sha_fails := false, load_fails := false }

def c1State : SynState :=
  { store := [("a.json", ⟨"sha-old", ["p0", "p1", "p2"]⟩)],
    vstore := ["p0", "p1", "p2"],
    upserts := 0, deletes := 0, new_count := 0, changed_count := 0,
    skipped_count := 0, error_count := 0 }

/-- C1: the claim requires that after a pass in which a document's
fingerprint changed, the vector store contains exactly the new chunk ids for
that source key.  In `ingest_synthetic` the deletion of the old point ids is
commented out, so the changed file `a.json` (old chunks `p0,p1,p2`, new chunk
set `[p0]`) leaves the orphans `p1,p2` in the vector store: no delete call is
issued, and the pass miscounts the update as `new`. -/
theorem synthetic_changed_leaves_orphans :
    is_synthetic_changed c1State.store c1File.file_name c1File.content_sha
      = true ∧
    (ingest_synthetic c1State [c1File]).vstore = ["p0", "p1", "p2"] ∧
    (ingest_synthetic c1State [c1File]).deletes = 0 ∧
    get_old_synthetic_point_ids (ingest_synthetic c1State [c1File]).store
      "a.json" = ["p0"] ∧
    "p1" ∈ (ingest_synthetic c1State [c1File]).vstore ∧
    "p1" ∉ c1File.node_ids ∧
    (ingest_synthetic c1State [c1File]).new_count = 1 ∧
    (ingest_synthetic c1State [c1File]).changed_count = 0 := by
  decide

/-! ## C2 — idempotence of an unchanged GitHub sync pass -/

theorem githubStep_skip (st : SyncState) (f : RepoFile)
    (h : is_changed st.store f.file_key f.git_sha = false) :
    githubStep st f = { st with skipped_count := st.skipped_count + 1 } := by
  simp [githubStep, h]

theorem githubStep_store_of_changed (st : SyncState) (f : RepoFile)
    (h : is_changed st.store f.file_key f.git_sha = true) :
    (githubStep st f).store =
      record_file st.store f.file_key f.git_sha f.node_ids := by
  simp only [githubStep, h, Bool.not_true, Bool.false_eq_true, if_false,
    not_true_eq_false]
  split <;> rfl

theorem githubStep_storeGet_other (st : SyncState) (f : RepoFile)
    (k : String) (hk : f.file_key ≠ k) :
    storeGet (githubStep st f).store k = storeGet st.store k := by
  by_cases h : is_changed st.store f.file_key f.git_sha
  · rw [githubStep_store_of_changed st f h]
    exact storeGet_storeSet_ne _ _ _ _ hk
  · rw [githubStep_skip st f (by simpa using h)]

theorem githubStep_unchanged_after (st : SyncState) (f : RepoFile) :
    is_changed (githubStep st f).store f.file_key f.git_sha = false := by
  by_cases h : is_changed st.store f.file_key f.git_sha
  · rw [githubStep_store_of_changed st f h]
    exact is_changed_record_self _ _ _ _
  · rw [githubStep_skip st f (by simpa using h)]
    simpa using h

theorem ingest_github_storeGet_other (files : List RepoFile)
    (st : SyncState) (k : String) (h : ∀ f ∈ files, f.file_key ≠ k) :
    storeGet (ingest_github st files).store k = storeGet st.store k := by
  induction files generalizing st with
  | nil => rfl
  | cons g rest ih =>
    rw [show ingest_github st (g :: rest) =
        ingest_github (githubStep st g) rest from rfl,
      ih (githubStep st g) (fun f hf => h f (List.mem_cons_of_mem g hf)),
      githubStep_storeGet_other st g k (h g (List.mem_cons_self g rest))]

theorem ingest_github_establishes (files : List RepoFile) (st : SyncState)
    (hnd : (files.map RepoFile.file_key).Nodup) :
    ∀ f ∈ files,
      is_changed (ingest_github st files).store f.file_key f.git_sha
        = false := by
  induction files generalizing st with
  | nil => intro f hf; simp at hf
  | cons g rest ih =>
    simp only [List.map_cons, List.nodup_cons, List.mem_map] at hnd
    intro f hf
    rcases List.mem_cons.mp hf with hfg | hfr
    · subst hfg
      have hpres : storeGet (ingest_github (githubStep st f) rest).store
          f.file_key = storeGet (githubStep st f).store f.file_key := by
        refine ingest_github_storeGet_other rest (githubStep st f) f.file_key
          (fun g' hg' hkey => ?_)
        exact hnd.1 ⟨g', hg', hkey⟩
      rw [show ingest_github st (f :: rest) =
          ingest_github (githubStep st f) rest from rfl,
        is_changed_congr hpres]
      exact githubStep_unchanged_after st f
    · exact ih (githubStep st g) hnd.2 f hfr

theorem ingest_github_all_unchanged (files : List RepoFile) (st : SyncState)
    (h : ∀ f ∈ files, is_changed st.store f.file_key f.git_sha = false) :
    ingest_github st files =
      { st with skipped_count := st.skipped_count + files.length } := by
  induction files generalizing st with
  | nil => simp [ingest_github]
  | cons g rest ih =>
    have hstep := githubStep_skip st g (h g (List.mem_cons_self g rest))
    have hrest : ∀ f ∈ rest,
        is_changed (githubStep st g).store f.file_key f.git_sha = false := by
      intro f hf
      rw [hstep]
      exact h f (List.mem_cons_of_mem g hf)
    rw [show ingest_github st (g :: rest) =
        ingest_github (githubStep st g) rest from rfl,
      ih (githubStep st g) hrest, hstep]
    simp only [List.length_cons]
    congr 1
    omega

/-- The state at the start of a second run of the same pass: the persisted
ledger and the vector store carry over, the per-run counters are the
function's fresh locals. -/
def rerunState (st0 : SyncState) (files : List RepoFile) : SyncState :=
  { store := (ingest_github st0 files).store,
    vstore := (ingest_github st0 files).vstore,
    upserts := 0, deletes := 0, new_count := 0, changed_count := 0,
    skipped_count := 0 }

/-- C2: after a completed GitHub sync pass over files with distinct keys,
re-running the same pass with every fingerprint unchanged performs zero
upsert and zero delete calls — every document is skipped — and leaves the
ledger and the vector store untouched; and `is_changed` returns true iff the
key is absent from the store or the stored fingerprint differs. -/
theorem ingest_github_idempotent (st0 : SyncState) (files : List RepoFile)
    (hnd : (files.map RepoFile.file_key).Nodup) :
    ingest_github (rerunState st0 files) files =
      { rerunState st0 files with skipped_count := files.length } ∧
    (∀ (s : Store) (k sha : String),
      is_changed s k sha = true ↔
        storeGet s k = none ∨
        ∃ e, storeGet s k = some e ∧ e.fingerprint ≠ sha) := by
  constructor
  · have hall : ∀ f ∈ files,
        is_changed (rerunState st0 files).store f.file_key f.git_sha
          = false := by
      intro f hf
      exact ingest_github_establishes files st0 hnd f hf
    simpa [rerunState] using
      ingest_github_all_unchanged files (rerunState st0 files) hall
  · intro s k sha
    cases h : storeGet s k with
    | none => simp [is_changed, h]
    | some e => simp [is_changed, h]

def c2Files : List RepoFile :=
  [{ file_key := "repo/a.py", git_sha := "sha-a", node_ids := ["pa1", "pa2"] },
   { file_key := "repo/b.md", git_sha := "sha-b", node_ids := ["pb1"] }]

def c2Init : SyncState :=
  { store := [], vstore := [], upserts := 0, deletes := 0, new_count := 0,
    changed_count := 0, skipped_count := 0 }

/-- Witness for C2 on a concrete two-file repository. -/
theorem ingest_github_idempotent_witness :
    (c2Files.map RepoFile.file_key).Nodup ∧
    (ingest_github (rerunState c2Init c2Files) c2Files =
        { rerunState c2Init c2Files with skipped_count := c2Files.length } ∧
      (∀ (s : Store) (k sha : String),
        is_changed s k sha = true ↔
          storeGet s k = none ∨
          ∃ e, storeGet s k = some e ∧ e.fingerprint ≠ sha)) :=
  ⟨by decide, ingest_github_idempotent c2Init c2Files (by decide)⟩

/-! ## C9 — per-document failure containment -/

/-- A new Google-Drive document whose chunk/upsert stage raises, followed by
a healthy document. -/
def c9BadDoc : GDoc :=
  { file_id := "d1", modified_time := "t1", node_ids := ["q1"],
    has_metadata := true, process_fails := true }

def c9GoodDoc : GDoc :=
  { file_id := "d2", modified_time := "t2", node_ids := ["q2"],
    has_metadata := true, process_fails := false }

/-- C9 counterexample: in `ingest_folder` nothing catches a per-document
chunk/embed/upsert failure, so the first failing document aborts the whole
pass — the second document is never processed and no summary is reported
(and the pass's summary has no errored count at all). -/
theorem ingest_folder_aborts_on_failure :
    ingest_folder c2Init [c9BadDoc, c9GoodDoc] =
      Except.error "unhandled exception in tag_and_chunk or upsert_nodes" := by
  rfl

/-- C9 amended: only the synthetic pass contains per-document failures.  A
failure while hashing the file is caught, counted in `error_count`, and the
pass proceeds to the next file; a failure while loading/chunking a changed
file likewise (the file having already been counted new); the loop always
continues past a processed file; and `changed_count` is never incremented,
so the reported summary is `{new, changed = 0, skipped, errored}`. -/
theorem ingest_synthetic_error_containment :
    (∀ (st : SynState) (f : SynFile) (rest : List SynFile),
      ingest_synthetic st (f :: rest) =
        ingest_synthetic (syntheticStep st f) rest) ∧
    (∀ (st : SynState) (f : SynFile), f.sha_fails = true →
      syntheticStep st f = { st with error_count := st.error_count + 1 }) ∧
    (∀ (st : SynState) (f : SynFile), f.sha_fails = false →
      f.load_fails = true →
      is_synthetic_changed st.store f.file_name f.content_sha = true →
      syntheticStep st f =
        { st with new_count := st.new_count + 1,
                  error_count := st.error_count + 1 }) ∧
    (∀ (st : SynState) (files : List SynFile),
      (ingest_synthetic st files).changed_count = st.changed_count) := by
  refine ⟨fun st f rest => rfl, ?_, ?_, ?_⟩
  · intro st f h
    simp [syntheticStep, h]
  · intro st f h1 h2 h3
    simp [syntheticStep, h1, h2, h3]
  · intro st files
    induction files generalizing st with
    | nil => rfl
    | cons f rest ih =>
      rw [show ingest_synthetic st (f :: rest) =
          ingest_synthetic (syntheticStep st f) rest from rfl, ih]
      unfold syntheticStep
      split
      · rfl
      · split
        · rfl
        · split <;> rfl

/-- Witness for C9's amended theorem: a synthetic pass over one failing and
one healthy file counts one error, one new file, and processes both. -/
theorem ingest_synthetic_error_containment_witness :
    ingest_synthetic
        { store := [], vstore := [], upserts := 0, deletes := 0,
          new_count := 0, changed_count := 0, skipped_count := 0,
          error_count := 0 }
        [{ file_name := "bad.json", content_sha := "s1", node_ids := ["x1"],
           sha_fails := true, load_fails := false },
         { file_name := "good.json", content_sha := "s2", node_ids := ["x2"],
           sha_fails := false, load_fails := false }] =
      ingest_synthetic
        (syntheticStep
          { store := [], vstore := [], upserts := 0, deletes := 0,
            new_count := 0, changed_count := 0, skipped_count := 0,
            error_count := 0 }
          { file_name := "bad.json", content_sha := "s1", node_ids := ["x1"],
            sha_fails := true, load_fails := false })
        [{ file_name := "good.json", content_sha := "s2", node_ids := ["x2"],
           sha_fails := false, load_fails := false }] ∧
    syntheticStep
        { store := [], vstore := [], upserts := 0, deletes := 0,
          new_count := 0, changed_count := 0, skipped_count := 0,
          error_count := 0 }
        { file_name := "bad.json", content_sha := "s1", node_ids := ["x1"],
          sha_fails := true, load_fails := false } =
      { store := [], vstore := [], upserts := 0, deletes := 0, new_count := 0,
        changed_count := 0, skipped_count := 0, error_count := 0 + 1 } :=
  ⟨ingest_synthetic_error_containment.1 _ _ _,
   ingest_synthetic_error_containment.2.1 _ _ rfl⟩

/-! ## C3 — classifier margin rule -/

theorem insertDescQ_perm (x : ℚ) (l : List ℚ) :
    List.Perm (insertDescQ x l) (x :: l) := by
  induction l with
  | nil => rfl
  | cons y ys ih =>
    by_cases h : y ≤ x
    · simp [insertDescQ, h]
    · simp only [insertDescQ, h, if_false]
      exact ((ih.cons y).trans (List.Perm.swap x y ys))

theorem sortDescQ_perm (l : List ℚ) : List.Perm (sortDescQ l) l := by
  induction l with
  | nil => rfl
  | cons x xs ih => exact (insertDescQ_perm x (sortDescQ xs)).trans (ih.cons x)

theorem length_sortDescQ (l : List ℚ) : (sortDescQ l).length = l.length :=
  (sortDescQ_perm l).length_eq

theorem insertDescQ_pairwise (x : ℚ) (l : List ℚ)
    (h : l.Pairwise (fun a b => b ≤ a)) :
    (insertDescQ x l).Pairwise (fun a b => b ≤ a) := by
  induction l with
  | nil => simp [insertDescQ]
  | cons y ys ih =>
    rcases List.pairwise_cons.mp h with ⟨hy, hys⟩
    by_cases hle : y ≤ x
    · simp only [insertDescQ, hle, if_true]
      refine List.pairwise_cons.mpr ⟨?_, h⟩
      intro z hz
      rcases List.mem_cons.mp hz with rfl | hz'
      · exact hle
      · exact le_trans (hy z hz') hle
    · simp only [insertDescQ, hle, if_false]
      refine List.pairwise_cons.mpr ⟨?_, ih hys⟩
      intro z hz
      rcases List.mem_cons.mp ((insertDescQ_perm x ys).mem_iff.mp hz) with
        rfl | hz'
      · exact le_of_lt (lt_of_not_le hle)
      · exact hy z hz'

theorem sortDescQ_pairwise (l : List ℚ) :
    (sortDescQ l).Pairwise (fun a b => b ≤ a) := by
  induction l with
  | nil => simp [sortDescQ]
  | cons x xs ih => exact insertDescQ_pairwise x (sortDescQ xs) ih

/-- The head of the descending sort is a maximal element of the list. -/
theorem sortDescQ_head_max (l : List ℚ) (best : ℚ) (rest : List ℚ)
    (h : sortDescQ l = best :: rest) :
    best ∈ l ∧ ∀ v ∈ l, v ≤ best := by
  have hperm := sortDescQ_perm l
  refine ⟨hperm.mem_iff.mp (h ▸ List.mem_cons_self best rest), ?_⟩
  intro v hv
  have hv' : v ∈ sortDescQ l := hperm.mem_iff.mpr hv
  rw [h] at hv'
  rcases List.mem_cons.mp hv' with rfl | hv''
  · exact le_refl v
  · have hp := sortDescQ_pairwise l
    rw [h] at hp
    exact (List.pairwise_cons.mp hp).1 v hv''

/-- The champion of the `max(scores, key=scores.get)` fold is drawn from the
seed or the list, dominates the seed, and dominates every list element. -/
theorem foldl_argmax_spec (ps : List (String × ℚ)) (p : String × ℚ) :
    (ps.foldl (fun b q => if q.2 > b.2 then q else b) p = p ∨
      ps.foldl (fun b q => if q.2 > b.2 then q else b) p ∈ ps) ∧
    p.2 ≤ (ps.foldl (fun b q => if q.2 > b.2 then q else b) p).2 ∧
    ∀ q ∈ ps, q.2 ≤ (ps.foldl (fun b q => if q.2 > b.2 then q else b) p).2 := by
  induction ps generalizing p with
  | nil => exact ⟨Or.inl rfl, le_refl _, by simp⟩
  | cons q qs ih =>
    have hfold : (q :: qs).foldl (fun b q => if q.2 > b.2 then q else b) p =
        qs.foldl (fun b q => if q.2 > b.2 then q else b)
          (if q.2 > p.2 then q else p) := rfl
    rw [hfold]
    by_cases hq : q.2 > p.2
    · rw [if_pos hq]
      obtain ⟨hmem, hacc, hall⟩ := ih q
      refine ⟨?_, le_trans (le_of_lt hq) hacc, ?_⟩
      · rcases hmem with h | h
        · exact Or.inr (by rw [h]; exact List.mem_cons_self q qs)
        · exact Or.inr (List.mem_cons_of_mem q h)
      · intro z hz
        rcases List.mem_cons.mp hz with rfl | hz'
        · exact hacc
        · exact hall z hz'
    · rw [if_neg hq]
      obtain ⟨hmem, hacc, hall⟩ := ih p
      refine ⟨?_, hacc, ?_⟩
      · rcases hmem with h | h
        · exact Or.inl h
        · exact Or.inr (List.mem_cons_of_mem q h)
      · intro z hz
        rcases List.mem_cons.mp hz with rfl | hz'
        · exact le_trans (le_of_not_lt hq) hacc
        · exact hall z hz'

/-- `pyArgmax` on a nonempty score map returns a key holding a maximal value.
-/
theorem pyArgmax_spec (p : String × ℚ) (ps : List (String × ℚ)) :
    ∃ k v, pyArgmax (p :: ps) = some k ∧ (k, v) ∈ p :: ps ∧
      ∀ q ∈ p :: ps, q.2 ≤ v := by
  obtain ⟨hmem, hp, hall⟩ := foldl_argmax_spec ps p
  refine ⟨(ps.foldl (fun b q => if q.2 > b.2 then q else b) p).1,
    (ps.foldl (fun b q => if q.2 > b.2 then q else b) p).2, ?_, ?_, ?_⟩
  · rfl
  · rcases hmem with h | h
    · rw [Prod.mk.eta, h]; exact List.mem_cons_self p ps
    · rw [Prod.mk.eta]; exact List.mem_cons_of_mem p h
  · intro q hq
    rcases List.mem_cons.mp hq with rfl | hq'
    · exact hp
    · exact hall q hq'

/-- Unfolding of `detect_mode` once the sorted score list is known. -/
theorem detect_mode_eq_of_sorted {α β : Type} (cos : α → β → ℚ) (qvec : α)
    (anchors : List (String × β × List β)) (best second : ℚ) (tail : List ℚ)
    (hs : sortDescQ ((ns_scores cos qvec anchors).map Prod.snd) =
      best :: second :: tail) :
    detect_mode cos qvec anchors =
      if best - second < CONFIDENCE_THRESHOLD then
        some ("ambiguous", ns_scores cos qvec anchors)
      else
        match pyArgmax (ns_scores cos qvec anchors) with
        | some mode => some (mode, ns_scores cos qvec anchors)
        | none => none := by
  simp only [detect_mode]
  rw [hs]

/-- C3: with at least two namespaces, `detect_mode` scores each namespace as
the maximum cosine against its exemplars (`ns_scores`), and returns
`("ambiguous", scores)` when the gap between the best and second-best sorted
scores is below `CONFIDENCE_THRESHOLD = 0.08`, and otherwise a top-scoring
namespace together with the same score map. -/
theorem detect_mode_margin_rule {α β : Type} (cos : α → β → ℚ) (qvec : α)
    (a b : String × β × List β) (rest : List (String × β × List β)) :
    ∃ best second tail,
      sortDescQ ((ns_scores cos qvec (a :: b :: rest)).map Prod.snd) =
        best :: second :: tail ∧
      best ∈ (ns_scores cos qvec (a :: b :: rest)).map Prod.snd ∧
      (∀ v ∈ (ns_scores cos qvec (a :: b :: rest)).map Prod.snd, v ≤ best) ∧
      (best - second < CONFIDENCE_THRESHOLD →
        detect_mode cos qvec (a :: b :: rest) =
          some ("ambiguous", ns_scores cos qvec (a :: b :: rest))) ∧
      (CONFIDENCE_THRESHOLD ≤ best - second →
        ∃ mode,
          detect_mode cos qvec (a :: b :: rest) =
            some (mode, ns_scores cos qvec (a :: b :: rest)) ∧
          (mode, best) ∈ ns_scores cos qvec (a :: b :: rest)) := by
  have hlen : (sortDescQ ((ns_scores cos qvec (a :: b :: rest)).map
      Prod.snd)).length = rest.length + 2 := by
    rw [length_sortDescQ]
    simp [ns_scores]
  cases hs : sortDescQ ((ns_scores cos qvec (a :: b :: rest)).map Prod.snd) with
  | nil => rw [hs] at hlen; simp at hlen
  | cons best rest1 =>
    cases rest1 with
    | nil => rw [hs] at hlen; simp at hlen
    | cons second tail =>
      refine ⟨best, second, tail, rfl, ?_, ?_, ?_, ?_⟩
      · exact (sortDescQ_head_max _ _ _ hs).1
      · exact (sortDescQ_head_max _ _ _ hs).2
      · intro hm
        rw [detect_mode_eq_of_sorted cos qvec _ best second tail hs, if_pos hm]
      · intro hm
        rw [detect_mode_eq_of_sorted cos qvec _ best second tail hs,
          if_neg (not_lt.mpr hm)]
        have hcons : ns_scores cos qvec (a :: b :: rest) =
            (a.1, pyMax (cos qvec a.2.1) (a.2.2.map (cos qvec))) ::
            ns_scores cos qvec (b :: rest) := rfl
        obtain ⟨k, v, hk, hmem, hall⟩ :=
          pyArgmax_spec (a.1, pyMax (cos qvec a.2.1) (a.2.2.map (cos qvec)))
            (ns_scores cos qvec (b :: rest))
        have hv_best : v = best := by
          have hvmem : v ∈ (ns_scores cos qvec (a :: b :: rest)).map
              Prod.snd := by
            rw [hcons]
            exact List.mem_map.mpr ⟨(k, v), hmem, rfl⟩
          have h1 : v ≤ best := (sortDescQ_head_max _ _ _ hs).2 v hvmem
          have h2 : best ≤ v := by
            obtain ⟨q, hq, hq2⟩ :=
              List.mem_map.mp (sortDescQ_head_max _ _ _ hs).1
            rw [hcons] at hq
            calc best = q.2 := hq2.symm
              _ ≤ v := hall q hq
          exact le_antisymm h1 h2
        refine ⟨k, ?_, ?_⟩
        · rw [hcons, hk]
        · rw [hcons, ← hv_best]; exact hmem

def c3AnchorsAmbiguous : List (String × ℚ × List ℚ) :=
  [("A", 9 / 10, []), ("B", 83 / 100, [])]

def c3AnchorsClear : List (String × ℚ × List ℚ) :=
  [("A", 9 / 10, []), ("B", 80 / 100, [])]

/-- The identity score function used to instantiate the classifier on
concrete score maps: each exemplar vector is its own score. -/
def idScore : Unit → ℚ → ℚ := fun _ x => x

/-- Witness for C3: scores `{A: 0.9, B: 0.83}` (margin 0.07 < 0.08) give
`("ambiguous", full score map)`; scores `{A: 0.9, B: 0.80}` (margin 0.10)
give namespace `A` with the full score map. -/
theorem detect_mode_margin_rule_witness :
    detect_mode idScore () c3AnchorsAmbiguous =
      some ("ambiguous", [("A", 9 / 10), ("B", 83 / 100)]) ∧
    detect_mode idScore () c3AnchorsClear =
      some ("A", [("A", 9 / 10), ("B", 80 / 100)]) := by
  constructor
  · obtain ⟨best, second, tail, hs, -, -, hamb, -⟩ :=
      detect_mode_margin_rule idScore () ("A", (9:ℚ) / 10, [])
        ("B", (83:ℚ) / 100, []) []
    have hcomp : sortDescQ (((ns_scores idScore ()
        [("A", (9:ℚ) / 10, []), ("B", (83:ℚ) / 100, [])]).map Prod.snd)) =
        [(9:ℚ) / 10, 83 / 100] := by
      norm_num [sortDescQ, insertDescQ, ns_scores, pyMax, idScore]
    have heq := hcomp.symm.trans hs
    injection heq with h1 h23
    injection h23 with h2 h3
    exact hamb (by rw [← h1, ← h2]; norm_num [CONFIDENCE_THRESHOLD])
  · obtain ⟨best, second, tail, hs, -, -, -, hclear⟩ :=
      detect_mode_margin_rule idScore () ("A", (9:ℚ) / 10, [])
        ("B", (80:ℚ) / 100, []) []
    have hcomp : sortDescQ (((ns_scores idScore ()
        [("A", (9:ℚ) / 10, []), ("B", (80:ℚ) / 100, [])]).map Prod.snd)) =
        [(9:ℚ) / 10, 80 / 100] := by
      norm_num [sortDescQ, insertDescQ, ns_scores, pyMax, idScore]
    have heq := hcomp.symm.trans hs
    injection heq with h1 h23
    injection h23 with h2 h3
    obtain ⟨mode, hmode, hmem⟩ :=
      hclear (by rw [← h1, ← h2]; norm_num [CONFIDENCE_THRESHOLD])
    have hmem' : (mode, best) ∈
        [("A", (9:ℚ) / 10), ("B", (80:ℚ) / 100)] := hmem
    have hmode_eq : mode = "A" := by
      rw [← h1] at hmem'
      rcases List.mem_cons.mp hmem' with h | h
      · exact congrArg Prod.fst h
      · exfalso
        have h910 : ((9:ℚ) / 10) = 80 / 100 :=
          congrArg Prod.snd (List.mem_singleton.mp h)
        norm_num at h910
    rw [hmode_eq] at hmode
    exact hmode

/-! ## C4 — cross-namespace merge for ambiguous queries -/

theorem insertDescChunk_perm (c : RetrievedChunk) (l : List RetrievedChunk) :
    List.Perm (insertDescChunk c l) (c :: l) := by
  induction l with
  | nil => rfl
  | cons d ds ih =>
    by_cases h : d.score ≤ c.score
    · simp [insertDescChunk, h]
    · simp only [insertDescChunk, h, if_false]
      exact ((ih.cons d).trans (List.Perm.swap c d ds))

theorem sortDescChunks_perm (l : List RetrievedChunk) :
    List.Perm (sortDescChunks l) l := by
  induction l with
  | nil => rfl
  | cons c cs ih =>
    exact (insertDescChunk_perm c (sortDescChunks cs)).trans (ih.cons c)

theorem insertDescChunk_pairwise (c : RetrievedChunk)
    (l : List RetrievedChunk)
    (h : l.Pairwise (fun a b => b.score ≤ a.score)) :
    (insertDescChunk c l).Pairwise (fun a b => b.score ≤ a.score) := by
  induction l with
  | nil => simp [insertDescChunk]
  | cons d ds ih =>
    rcases List.pairwise_cons.mp h with ⟨hd, hds⟩
    by_cases hle : d.score ≤ c.score
    · simp only [insertDescChunk, hle, if_true]
      refine List.pairwise_cons.mpr ⟨?_, h⟩
      intro z hz
      rcases List.mem_cons.mp hz with rfl | hz'
      · exact hle
      · exact le_trans (hd z hz') hle
    · simp only [insertDescChunk, hle, if_false]
      refine List.pairwise_cons.mpr ⟨?_, ih hds⟩
      intro z hz
      rcases List.mem_cons.mp ((insertDescChunk_perm c ds).mem_iff.mp hz) with
        rfl | hz'
      · exact le_of_lt (lt_of_not_le hle)
      · exact hd z hz'

theorem sortDescChunks_pairwise (l : List RetrievedChunk) :
    (sortDescChunks l).Pairwise (fun a b => b.score ≤ a.score) := by
  induction l with
  | nil => simp [sortDescChunks]
  | cons c cs ih => exact insertDescChunk_pairwise c (sortDescChunks cs) ih

def chunkA1 : RetrievedChunk :=
  { text := "a1", score := 9 / 10, doc_title := "", source_url := "",
    chunk_index := 0, personality_ns := "A", content_type := "documentation" }

def chunkA2 : RetrievedChunk :=
  { text := "a2", score := 7 / 10, doc_title := "", source_url := "",
    chunk_index := 1, personality_ns := "A", content_type := "documentation" }

def chunkB1 : RetrievedChunk :=
  { text := "b1", score := 85 / 100, doc_title := "", source_url := "",
    chunk_index := 0, personality_ns := "B", content_type := "documentation" }

def chunkB2 : RetrievedChunk :=
  { text := "b2", score := 6 / 10, doc_title := "", source_url := "",
    chunk_index := 1, personality_ns := "B", content_type := "documentation" }

/-- A vector store where namespace A returns chunks scored `[0.9, 0.7]` and
namespace B returns `[0.85, 0.6]`. -/
def c4Store : String → Nat → List RetrievedChunk := fun ns _ =>
  if ns = "A" then [chunkA1, chunkA2]
  else if ns = "B" then [chunkB1, chunkB2]
  else []

def tieA : RetrievedChunk :=
  { text := "ta", score := 85 / 100, doc_title := "", source_url := "",
    chunk_index := 0, personality_ns := "A", content_type := "documentation" }

def tieB : RetrievedChunk :=
  { text := "tb", score := 85 / 100, doc_title := "", source_url := "",
    chunk_index := 0, personality_ns := "B", content_type := "documentation" }

/-- A vector store where namespaces A and B return equal-scored chunks. -/
def c4TieStore : String → Nat → List RetrievedChunk := fun ns _ =>
  if ns = "A" then [tieA] else if ns = "B" then [tieB] else []

/-- C4: for an ambiguous query, `retrieve` issues one search per namespace
with the same per-namespace k, concatenates, globally re-sorts by score
descending and truncates to `TOP_K`; the merged list is sorted descending and
bounded by k; on the claim's example (A scores `[0.9, 0.7]`, B scores
`[0.85, 0.6]`, k = 2) the merge is `[0.9 from A, 0.85 from B]` regardless of
namespace order, and exact ties keep the namespace-list iteration order. -/
theorem retrieve_ambiguous_merge_spec :
    (∀ query_ns, retrieve query_ns "ambiguous" =
      Except.ok
        (ambiguous_merge query_ns namespaces AMBIGUOUS_K_PER_NS TOP_K,
         out_of_scope_flag
           (ambiguous_merge query_ns namespaces AMBIGUOUS_K_PER_NS TOP_K))) ∧
    (∀ query_ns nss k_per_ns k,
      (ambiguous_merge query_ns nss k_per_ns k).Pairwise
        (fun a b => b.score ≤ a.score)) ∧
    (∀ query_ns nss k_per_ns k,
      (ambiguous_merge query_ns nss k_per_ns k).length ≤ k) ∧
    ambiguous_merge c4Store ["A", "B"] 2 2 = [chunkA1, chunkB1] ∧
    ambiguous_merge c4Store ["B", "A"] 2 2 = [chunkA1, chunkB1] ∧
    ambiguous_merge c4TieStore ["A", "B"] 2 2 = [tieA, tieB] ∧
    ambiguous_merge c4TieStore ["B", "A"] 2 2 = [tieB, tieA] := by
  refine ⟨fun query_ns => rfl, ?_, ?_, ?_, ?_, ?_, ?_⟩
  · intro query_ns nss k_per_ns k
    exact List.Pairwise.sublist (List.take_sublist k _)
      (sortDescChunks_pairwise _)
  · intro query_ns nss k_per_ns k
    exact List.length_take_le k _
  · norm_num [ambiguous_merge, c4Store, sortDescChunks, insertDescChunk,
      chunkA1, chunkA2, chunkB1, chunkB2]
  · norm_num [ambiguous_merge, c4Store, sortDescChunks, insertDescChunk,
      chunkA1, chunkA2, chunkB1, chunkB2]
  · norm_num [ambiguous_merge, c4TieStore, sortDescChunks, insertDescChunk,
      tieA, tieB]
  · norm_num [ambiguous_merge, c4TieStore, sortDescChunks, insertDescChunk,
      tieA, tieB]

/-! ## C5 — out-of-scope signalling -/

/-- C5: `retrieve` never raises for the configured namespaces list (only an
empty namespaces list could raise); the returned flag is true iff the chunk
list is empty or the best (first) chunk's score is below
`OUT_OF_SCOPE_THRESHOLD = 0.3`; and a store returning zero results yields
`([], true)`. -/
theorem retrieve_out_of_scope_spec :
    (∀ query_ns nspace, ∃ p, retrieve query_ns nspace = Except.ok p) ∧
    (∀ cs, out_of_scope_flag cs = true ↔
      cs = [] ∨ ∃ c t, cs = c :: t ∧ c.score < OUT_OF_SCOPE_THRESHOLD) ∧
    (∀ nspace, retrieve (fun _ _ => []) nspace = Except.ok ([], true)) ∧
    (∀ query_ns nspace cs flag,
      retrieve query_ns nspace = Except.ok (cs, flag) →
      (flag = true ↔
        cs = [] ∨ ∃ c t, cs = c :: t ∧ c.score < OUT_OF_SCOPE_THRESHOLD)) := by
  have hiff : ∀ cs, out_of_scope_flag cs = true ↔
      cs = [] ∨ ∃ c t, cs = c :: t ∧ c.score < OUT_OF_SCOPE_THRESHOLD := by
    intro cs
    cases cs with
    | nil => simp [out_of_scope_flag]
    | cons c t => simp [out_of_scope_flag]
  refine ⟨?_, hiff, ?_, ?_⟩
  · intro query_ns nspace
    by_cases h : nspace = "ambiguous"
    · subst h; exact ⟨_, rfl⟩
    · unfold retrieve
      rw [if_neg h]
      exact ⟨_, rfl⟩
  · intro nspace
    by_cases h : nspace = "ambiguous"
    · subst h; rfl
    · unfold retrieve
      rw [if_neg h]
      rfl
  · intro query_ns nspace cs flag h
    by_cases hns : nspace = "ambiguous"
    · subst hns
      have h' : (Except.ok
          (ambiguous_merge query_ns namespaces AMBIGUOUS_K_PER_NS TOP_K,
           out_of_scope_flag
             (ambiguous_merge query_ns namespaces AMBIGUOUS_K_PER_NS TOP_K)) :
          Except String (List RetrievedChunk × Bool)) =
          Except.ok (cs, flag) := h
      injection h' with hpair
      obtain ⟨hcs, hflag⟩ := Prod.mk.injEq .. |>.mp hpair
      rw [← hcs, ← hflag]
      exact hiff _
    · unfold retrieve at h
      rw [if_neg hns] at h
      injection h with hpair
      obtain ⟨hcs, hflag⟩ := Prod.mk.injEq .. |>.mp hpair
      rw [← hcs, ← hflag]
      exact hiff _

/-- Witness for C5: on a store returning zero results, the flag is true and
the characterization holds for the returned empty list. -/
theorem retrieve_out_of_scope_spec_witness :
    true = true ↔
      (([] : List RetrievedChunk) = [] ∨
        ∃ c t, ([] : List RetrievedChunk) = c :: t ∧
          c.score < OUT_OF_SCOPE_THRESHOLD) :=
  retrieve_out_of_scope_spec.2.2.2 (fun _ _ => []) "technical" [] true rfl

end DigitalTwin
